import Mathlib

/-!
Shallow embedding of the promptvault library (src/promptvault/prompt.py and
src/promptvault/vault.py) and proofs about its specification claims.

Python runtime values that can appear as template variables, YAML field
values or log metadata are modelled by the `Value` type below; Python dicts
are modelled as association lists in insertion order with first-match lookup
(Python dicts have unique keys, stated as a `Nodup` hypothesis where a proof
needs it).
-/

deriving instance DecidableEq for Except

/-- A Python runtime value, as far as the library inspects one.  A float
carries the string CPython's `str()` would print for it; no claim depends on
float arithmetic, only on the runtime type tag and on text conversion. -/
inductive Value where
  | vstr (s : String)
  | vint (n : Int)
  | vfloat (r : String)
  | vbool (b : Bool)
  | vnone
deriving DecidableEq, Repr

/-- `type(v).__name__` for the values the library can meet. -/
def pyTypeName : Value → String
  | .vstr _ => "str"
  | .vint _ => "int"
  | .vfloat _ => "float"
  | .vbool _ => "bool"
  | .vnone => "NoneType"

/-- `str(v)`: the text CPython substitutes for a value.  For a float the
carried representation string is returned. -/
def valueStr : Value → String
  | .vstr s => s
  | .vint n => toString n
  | .vfloat r => r
  | .vbool b => if b then "True" else "False"
  | .vnone => "None"

/-- The four Python classes the validator's `type_map` can name. -/
inductive PyType where
  | str
  | int
  | float
  | bool
deriving DecidableEq, Repr

/-- `isinstance(v, t)`.  Note CPython's `bool` is a subclass of `int`, so a
boolean value passes an `int` check. -/
def pyIsInstance : Value → PyType → Bool
  | .vstr _, .str => true
  | .vint _, .int => true
  | .vbool _, .int => true
  | .vbool _, .bool => true
  | .vfloat _, .float => true
  | _, _ => false

/-- `type_map = {"str": str, "int": int, "float": float, "bool": bool}` and
`type_map.get(expected_type)`: any other tag maps to `None`.  (The guard
`if expected_type` in the source only rules out falsy tags, which this map
sends to `none` anyway, with the same outcome: no check.) -/
def typeMap : String → Option PyType
  | "str" => some .str
  | "int" => some .int
  | "float" => some .float
  | "bool" => some .bool
  | _ => none

/-- One declared variable's spec mapping: the keys `_validate` and
`_apply_defaults` read from `var_meta`, each `none` when the key is absent. -/
structure VarMeta where
  required : Option Bool := none
  default : Option Value := none
  type : Option String := none
deriving DecidableEq, Repr

/-- First-match lookup in an association list: Python `d[k]` / `k in d`
(`isSome`) for a dict modelled in insertion order with unique keys. -/
def dlookup (k : String) : List (String × α) → Option α
  | [] => none
  | (k', v) :: rest => if k = k' then some v else dlookup k rest

/-- The `Prompt` dataclass of prompt.py. -/
structure Prompt where
  name : String
  version : String
  template : String
  description : String := ""
  author : String := ""
  tags : List String := []
  «variables» : List (String × VarMeta) := []
  metadata : List (String × Value) := []
deriving DecidableEq, Repr

/-- Errors `Prompt.render` can raise.  The source raises `KeyError` for both
missing-variable shapes and `TypeError` for a type mismatch; the constructors
record exactly the data interpolated into each message. -/
inductive RenderError where
  | missingRequired (varName promptName promptVersion : String)
  | typeMismatch (varName promptName expectedType actualType : String)
  | missingVariable (varName promptName promptVersion : String)
      (expectedVars : List String)
  | invalidPlaceholder
deriving DecidableEq, Repr

/-- The loop body of `Prompt._validate`, iterating the `variables` dict in
declaration order over the call's keyword arguments `kw`.  For each variable:
first the required/default/absence check (raising `KeyError`), then the
optional type check (raising `TypeError`). -/
def validateVars (promptName promptVersion : String) :
    List (String × VarMeta) → List (String × Value) → Except RenderError Unit
  | [], _ => .ok ()
  | (n, meta) :: rest, kw =>
    if (meta.required.getD true) && !meta.default.isSome && (dlookup n kw).isNone then
      .error (.missingRequired n promptName promptVersion)
    else
      match meta.type, dlookup n kw with
      | some t, some v =>
        match typeMap t with
        | some py =>
          if pyIsInstance v py then validateVars promptName promptVersion rest kw
          else .error (.typeMismatch n promptName t (pyTypeName v))
        | none => validateVars promptName promptVersion rest kw
      | _, _ => validateVars promptName promptVersion rest kw

/-- `Prompt._validate`. -/
def Prompt.validate (p : Prompt) (kw : List (String × Value)) :
    Except RenderError Unit :=
  validateVars p.name p.version p.variables kw

/-- The first loop of `Prompt._apply_defaults`: for each declared variable in
order, the supplied value if present, else the declared default if present,
else no entry. -/
def applyDefaultsLoop : List (String × VarMeta) → List (String × Value) →
    List (String × Value)
  | [], _ => []
  | (n, meta) :: rest, kw =>
    match dlookup n kw with
    | some v => (n, v) :: applyDefaultsLoop rest kw
    | none =>
      match meta.default with
      | some d => (n, d) :: applyDefaultsLoop rest kw
      | none => applyDefaultsLoop rest kw

/-- `Prompt._apply_defaults`: the loop above, then
`merged.update({k: v for k, v in kwargs.items() if k not in merged})`. -/
def applyDefaults (vars : List (String × VarMeta)) (kw : List (String × Value)) :
    List (String × Value) :=
  let merged := applyDefaultsLoop vars kw
  merged ++ kw.filter (fun p => (dlookup p.1 merged).isNone)

/-- Errors `string.Template.substitute` can raise: `KeyError` on a placeholder
absent from the mapping, `ValueError` on an invalid `$` pattern. -/
inductive SubstErr where
  | missing (name : String)
  | invalid
deriving DecidableEq, Repr

/-- `[_a-zA-Z]`: start of a `string.Template` identifier (the class's default
ASCII id pattern with IGNORECASE). -/
def isIdStart (c : Char) : Bool := c.isAlpha || c = '_'

/-- `[_a-zA-Z0-9]`: continuation of a `string.Template` identifier. -/
def isIdChar (c : Char) : Bool := c.isAlphanum || c = '_'

/-- Scanner state for `string.Template.substitute`'s single left-to-right
regex pass: outside any token, right after `$`, inside a bare `$name`, or
inside a braced placeholder. -/
inductive SubstState where
  | normal
  | afterDollar
  | inName (acc : String)
  | inBrace (acc : String)

/-- `string.Template(template).substitute(m)`, as a character-at-a-time scan.
`$$` yields `$`; `$name` and a brace-delimited name are looked up in `m` and
converted with `str()` (`KeyError` when absent, the leftmost one first);
every other `$` pattern is invalid (`ValueError`), including a lone trailing
`$` and a brace group that is not exactly one identifier. -/
def substGo (m : List (String × Value)) : SubstState → List Char →
    Except SubstErr String
  | .normal, [] => .ok ""
  | .normal, c :: rest =>
    if c = '$' then substGo m .afterDollar rest
    else (substGo m .normal rest).map (fun s => c.toString ++ s)
  | .afterDollar, [] => .error .invalid
  | .afterDollar, c :: rest =>
    if c = '$' then (substGo m .normal rest).map (fun s => "$" ++ s)
    else if c = '\x7b' then substGo m (.inBrace "") rest
    else if isIdStart c then substGo m (.inName c.toString) rest
    else .error .invalid
  | .inName acc, [] =>
    match dlookup acc m with
    | some v => .ok (valueStr v)
    | none => .error (.missing acc)
  | .inName acc, c :: rest =>
    if isIdChar c then substGo m (.inName (acc.push c)) rest
    else
      match dlookup acc m with
      | none => .error (.missing acc)
      | some v =>
        if c = '$' then (substGo m .afterDollar rest).map (fun s => valueStr v ++ s)
        else (substGo m .normal rest).map (fun s => valueStr v ++ c.toString ++ s)
  | .inBrace _, [] => .error .invalid
  | .inBrace acc, c :: rest =>
    if c = '\x7d' then
      if acc = "" then .error .invalid
      else
        match dlookup acc m with
        | some v => (substGo m .normal rest).map (fun s => valueStr v ++ s)
        | none => .error (.missing acc)
    else if (if acc = "" then isIdStart c else isIdChar c) then
      substGo m (.inBrace (acc.push c)) rest
    else .error .invalid

/-- Substitute a mapping into a template string. -/
def substitute (m : List (String × Value)) (tpl : String) :
    Except SubstErr String :=
  substGo m .normal tpl.data

/-- `Prompt.render`: validate, merge defaults, substitute; a `KeyError`
escaping the substitution is re-raised carrying the prompt's name, version
and the full declared-variable name list. -/
def Prompt.render (p : Prompt) (kw : List (String × Value)) :
    Except RenderError String :=
  match p.validate kw with
  | .error e => .error e
  | .ok () =>
    match substitute (applyDefaults p.variables kw) p.template with
    | .ok s => .ok s
    | .error (.missing x) =>
      .error (.missingVariable x p.name p.version (p.variables.map Prod.fst))
    | .error .invalid => .error .invalidPlaceholder

/-- One `.yaml` store file after `yaml.safe_load` (an empty or null document
loads as the empty mapping: every field `none`).  `stem` is the file name
without its extension; the recognized record fields are typed as the library
reads them, `extra` collects the remaining mapping entries that `_parse`
passes through as `metadata`. -/
structure RawFile where
  stem : String := ""
  name : Option String := none
  version : Option String := none
  template : Option String := none
  description : Option String := none
  author : Option String := none
  tags : Option (List String) := none
  «variables» : Option (List (String × VarMeta)) := none
  extra : List (String × Value) := []
deriving DecidableEq, Repr

/-- Errors the vault operations can raise: the two `FileNotFoundError`
shapes of `load` (carrying the data interpolated into each message) and the
`KeyError` a `data["version"]`/`data["name"]`/`data["template"]` access
raises on a mapping missing that key. -/
inductive VaultError where
  | promptNotFound (name : String) (available : List String)
  | versionNotFound (name requested : String) (available : List String)
  | pyKeyError
deriving DecidableEq, Repr

/-- `PromptVault._parse`: build a `Prompt` from a loaded mapping
(`data["name"]` and `data["template"]` raise `KeyError` when absent;
`version` is defaulted to `"1.0"`, the remaining fields to empty). -/
def parseFile (f : RawFile) : Except VaultError Prompt :=
  match f.name, f.template with
  | some nm, some tpl =>
    .ok { name := nm, version := f.version.getD "1.0", template := tpl,
          description := f.description.getD "", author := f.author.getD "",
          tags := f.tags.getD [], «variables» := f.variables.getD [],
          metadata := f.extra }
  | _, _ => .error .pyKeyError

/-- A `PromptVault`: the store directory is modelled as the ordered list of
parsed `.yaml` files its glob enumerates, re-read identically on every call;
`logFile` is the optional log sink path. -/
structure PromptVault where
  files : List RawFile
  logFile : Option String := none

/-- CPython string comparison (`a <= b`): lexicographic on code points. -/
def pyStrLeAux : List Char → List Char → Bool
  | [], _ => true
  | _ :: _, [] => false
  | a :: as, b :: bs => if a < b then true else if b < a then false else pyStrLeAux as bs

/-- `a <= b` on Python strings. -/
def pyStrLe (a b : String) : Bool := pyStrLeAux a.data b.data

/-- Stable insertion step for `sorted` on strings. -/
def insertStr (x : String) : List String → List String
  | [] => [x]
  | y :: ys => if pyStrLe x y then x :: y :: ys else y :: insertStr x ys

/-- Python `sorted` on a list of strings (ascending, stable; stability is
invisible here since equal strings are indistinguishable). -/
def sortStrings : List String → List String
  | [] => []
  | x :: xs => insertStr x (sortStrings xs)

/-- `PromptVault._find_files`: the files whose `name` field equals the
requested name (a file without a `name` field never matches). -/
def findFiles (v : PromptVault) (name : String) : List RawFile :=
  v.files.filter (fun f => f.name = some name)

/-- `PromptVault.list`: the distinct values of `data.get("name", f.stem)`
across the store, sorted ascending. -/
def PromptVault.list (v : PromptVault) : List String :=
  sortStrings ((v.files.map (fun f => f.name.getD f.stem)).dedup)

/-- `[p["version"] for p in candidates]`, raising `KeyError` on a candidate
without a `version` field. -/
def versionsOf : List RawFile → Except VaultError (List String)
  | [] => .ok []
  | f :: rest =>
    match f.version with
    | none => .error .pyKeyError
    | some fv => (versionsOf rest).map (fun l => fv :: l)

/-- `PromptVault.versions`: all version strings of the matching files,
sorted ascending by Python's plain string order. -/
def PromptVault.versions (v : PromptVault) (name : String) :
    Except VaultError (List String) :=
  (versionsOf (findFiles v name)).map sortStrings

/-- `next((p for p in candidates if p["version"] == version), None)`: scan in
store order, raising `KeyError` on a scanned candidate without a version. -/
def findByVersion : List RawFile → String → Except VaultError (Option RawFile)
  | [], _ => .ok none
  | f :: rest, ver =>
    match f.version with
    | none => .error .pyKeyError
    | some fv => if fv = ver then .ok (some f) else findByVersion rest ver

/-- Each candidate paired with its `p["version"]` sort key (`sorted` computes
every key, raising `KeyError` on a file without one). -/
def pairVersions : List RawFile → Except VaultError (List (RawFile × String))
  | [] => .ok []
  | f :: rest =>
    match f.version with
    | none => .error .pyKeyError
    | some fv => (pairVersions rest).map (fun l => (f, fv) :: l)

/-- Stable insertion step for `sorted(candidates, key=version)`. -/
def insertPair (x : RawFile × String) :
    List (RawFile × String) → List (RawFile × String)
  | [] => [x]
  | y :: ys => if pyStrLe x.2 y.2 then x :: y :: ys else y :: insertPair x ys

/-- Python's stable `sorted` on (file, version-key) pairs, ascending. -/
def sortPairs : List (RawFile × String) → List (RawFile × String)
  | [] => []
  | x :: xs => insertPair x (sortPairs xs)

/-- `PromptVault.load`: all candidates with the requested name
(`PromptNotFound` when none), then either the exact version match
(`VersionNotFound` listing the available versions) or, with no version
requested, `sorted(candidates, key=lambda p: p["version"])[-1]` — the
`getLastD` default is never reached since the candidate list is nonempty. -/
def PromptVault.load (v : PromptVault) (name : String) (version : Option String) :
    Except VaultError Prompt :=
  let candidates := findFiles v name
  if candidates.isEmpty then .error (.promptNotFound name v.list)
  else
    match version with
    | some ver =>
      match findByVersion candidates ver with
      | .error e => .error e
      | .ok (some f) => parseFile f
      | .ok none =>
        match versionsOf candidates with
        | .error e => .error e
        | .ok avail => .error (.versionNotFound name ver avail)
    | none =>
      match pairVersions candidates with
      | .error e => .error e
      | .ok pairs => parseFile ((sortPairs pairs).getLastD ({}, "")).1

/-- Is `c` one of the characters `str.splitlines` breaks on? -/
def isLineBreak (c : Char) : Bool :=
  c = '\n' || c = '\r' || c = '\x0b' || c = '\x0c' || c = '\x1c' ||
  c = '\x1d' || c = '\x1e' || c = '\x85' || c = '\u2028' || c = '\u2029'

/-- Accumulator pass for `str.splitlines(keepends=True)` (`acc` holds the
current line's characters in reverse; `\r\n` counts as one break). -/
def splitLinesAux : List Char → List Char → List String
  | [], acc => if acc.isEmpty then [] else [String.mk acc.reverse]
  | '\r' :: '\n' :: rest, acc =>
    String.mk (acc.reverse ++ ['\r', '\n']) :: splitLinesAux rest []
  | c :: rest, acc =>
    if isLineBreak c then String.mk (acc.reverse ++ [c]) :: splitLinesAux rest []
    else splitLinesAux rest (c :: acc)

/-- `s.splitlines(keepends=True)`. -/
def splitLinesKeepEnds (s : String) : List String := splitLinesAux s.data []

/-- Modelled from the spec: `difflib.unified_diff` is an external library
collaborator missing from the repository's own sources (spec section 1
places the unified-diff text algorithm out of scope; section 6 fixes its
surface: `---`/`+++` headers carrying the labels, an `@@` hunk header,
`-`/`+` line prefixes, and no output at all when the two line sequences are
identical).  This model yields no lines on identical inputs and otherwise a
header plus one hunk removing every old line and adding every new one. -/
def unifiedDiff (a b : List String) (fromfile tofile : String) : List String :=
  if a = b then []
  else
    ("--- " ++ fromfile ++ "\n") :: ("+++ " ++ tofile ++ "\n") ::
    ("@@ -1," ++ toString a.length ++ " +1," ++ toString b.length ++ " @@\n") ::
    (a.map (fun l => "-" ++ l) ++ b.map (fun l => "+" ++ l))

/-- `PromptVault.diff`: load both versions, split each template into lines,
join the unified diff, and fall back to the `"(no differences)"` sentinel
when the joined diff text is empty (Python's `"".join(delta) or ...`). -/
def PromptVault.diff (v : PromptVault) (name va vb : String) :
    Except VaultError String :=
  match v.load name (some va) with
  | .error e => .error e
  | .ok a =>
    match v.load name (some vb) with
    | .error e => .error e
    | .ok b =>
      let delta := unifiedDiff (splitLinesKeepEnds a.template)
          (splitLinesKeepEnds b.template) (name ++ " v" ++ va) (name ++ " v" ++ vb)
      let joined := String.join delta
      .ok (if joined = "" then "(no differences)" else joined)

/-- The externally visible filesystem effects one `PromptVault.log` call
performs, in order. -/
inductive LogEffect where
  | mkdirParent (path : String)
  | appendRecord (path : String) (record : List (String × Value))
deriving DecidableEq, Repr

/-- Python dict insertion `d[k] = v` semantics inside a dict literal merge:
an existing key keeps its position with the value overwritten, a new key is
appended. -/
def dictUpsert (d : List (String × α)) (k : String) (v : α) : List (String × α) :=
  if (dlookup k d).isSome then d.map (fun p => if p.1 = k then (k, v) else p)
  else d ++ [(k, v)]

/-- An optional string argument as the JSON value the log record stores. -/
def optStrVal : Option String → Value
  | some s => .vstr s
  | none => .vnone

/-- `PromptVault.log`, returning the filesystem effects of the call: nothing
at all when no log sink is configured, else the parent-directory creation
followed by one appended JSONL record (the fixed fields in literal order,
with `extra` merged in last-write-wins).  `now` stands for the
`datetime.utcnow().isoformat()` timestamp. -/
def PromptVault.log (v : PromptVault) (now : String) (name : String)
    (version rendered response model : Option String)
    (extra : List (String × Value)) : List LogEffect :=
  match v.logFile with
  | none => []
  | some path =>
    let record := [("timestamp", Value.vstr now), ("prompt", Value.vstr name),
      ("version", optStrVal version), ("model", optStrVal model),
      ("rendered", optStrVal rendered), ("response", optStrVal response)]
    let record := extra.foldl (fun d p => dictUpsert d p.1 p.2) record
    [.mkdirParent path, .appendRecord path record]

/-! ### Concrete instances used by the claim theorems -/

/-- The declared defaults of a variable mapping, as a supplied mapping. -/
def defaultsOf (vars : List (String × VarMeta)) : List (String × Value) :=
  vars.filterMap (fun nm => nm.2.default.map (fun d => (nm.1, d)))

/-- Does a declared default conform to the variable's declared type tag (no
tag, unrecognized tag or no default conform trivially)? -/
def defaultWellTyped (meta : VarMeta) : Bool :=
  match meta.default, meta.type with
  | some d, some t =>
    match typeMap t with
    | some py => pyIsInstance d py
    | none => true
  | _, _ => true

/-- Store file with name "p", version "1.2", template "A". -/
def c1FileA : RawFile :=
  { stem := "p_12", name := some "p", version := some "1.2", template := some "A" }

/-- Store file with name "p", version "1.10", template "B". -/
def c1FileB : RawFile :=
  { stem := "p_110", name := some "p", version := some "1.10", template := some "B" }

/-- A vault holding versions "1.2" and "1.10" of prompt "p". -/
def c1Vault : PromptVault := { files := [c1FileA, c1FileB] }

/-- A prompt declaring a variable with the unrecognized type tag "integer". -/
def c2Prompt : Prompt :=
  { name := "p", version := "1", template := "$n",
    «variables» := [("n", { type := some "integer" })] }

/-- A prompt declaring a variable with the recognized type tag "int". -/
def c2IntPrompt : Prompt :=
  { name := "p", version := "1", template := "$n",
    «variables» := [("n", { type := some "int" })] }

/-! ### Helper lemmas -/

theorem except_map_error {α β ε : Type} {f : α → β} {e : Except ε α} {err : ε}
    (h : e.map f = .error err) : e = .error err := by
  cases e with
  | ok a => simp [Except.map] at h
  | error e' => simpa [Except.map] using h

theorem dlookup_append {α : Type} (k : String) (a b : List (String × α)) :
    dlookup k (a ++ b) =
      match dlookup k a with
      | some v => some v
      | none => dlookup k b := by
  induction a with
  | nil => simp [dlookup]
  | cons hd tl ih =>
    obtain ⟨k', v⟩ := hd
    by_cases hk : k = k' <;> simp [dlookup, hk, ih]

theorem dlookup_mem {α : Type} {k : String} {l : List (String × α)} {v : α}
    (h : dlookup k l = some v) : (k, v) ∈ l := by
  induction l with
  | nil => simp [dlookup] at h
  | cons hd tl ih =>
    obtain ⟨k', v'⟩ := hd
    by_cases hk : k = k'
    · simp [dlookup, hk] at h
      simp [hk, h]
    · simp [dlookup, hk] at h
      exact List.mem_cons_of_mem _ (ih h)

theorem dlookup_isSome_of_mem {α : Type} {k : String} {v : α}
    {l : List (String × α)} (h : (k, v) ∈ l) : (dlookup k l).isSome := by
  induction l with
  | nil => simp at h
  | cons hd tl ih =>
    obtain ⟨k', v'⟩ := hd
    by_cases hk : k = k'
    · simp [dlookup, hk]
    · rcases List.mem_cons.mp h with heq | hmem
      · exact absurd (congrArg Prod.fst heq) hk
      · simpa [dlookup, hk] using ih hmem

theorem mem_keys_of_mem {α : Type} {k : String} {v : α} {l : List (String × α)}
    (h : (k, v) ∈ l) : k ∈ l.map Prod.fst :=
  List.mem_map.mpr ⟨(k, v), h, rfl⟩

theorem assoc_unique {α : Type} {k : String} {a b : α} {l : List (String × α)}
    (hnd : (l.map Prod.fst).Nodup) (ha : (k, a) ∈ l) (hb : (k, b) ∈ l) :
    a = b := by
  induction l with
  | nil => simp at ha
  | cons hd tl ih =>
    obtain ⟨k', v'⟩ := hd
    simp only [List.map_cons, List.nodup_cons] at hnd
    rcases List.mem_cons.mp ha with heq | hmem <;>
      rcases List.mem_cons.mp hb with heq' | hmem'
    · obtain ⟨h1, h2⟩ := Prod.mk.injEq .. |>.mp heq
      obtain ⟨h1', h2'⟩ := Prod.mk.injEq .. |>.mp heq'
      rw [h2, h2']
    · exfalso
      obtain ⟨h1, h2⟩ := Prod.mk.injEq .. |>.mp heq
      exact hnd.1 (h1 ▸ mem_keys_of_mem hmem')
    · exfalso
      obtain ⟨h1', h2'⟩ := Prod.mk.injEq .. |>.mp heq'
      exact hnd.1 (h1' ▸ mem_keys_of_mem hmem)
    · exact ih hnd.2 hmem hmem'

theorem mem_insertStr {a x : String} {l : List String} :
    a ∈ insertStr x l ↔ a = x ∨ a ∈ l := by
  induction l with
  | nil => simp [insertStr]
  | cons y ys ih =>
    unfold insertStr
    split
    · simp [List.mem_cons]
    · simp only [List.mem_cons, ih]
      tauto

theorem mem_sortStrings {a : String} {l : List String} :
    a ∈ sortStrings l ↔ a ∈ l := by
  induction l with
  | nil => simp [sortStrings]
  | cons x xs ih => simp [sortStrings, mem_insertStr, ih]

theorem validateVars_append (pn pv : String) (pre rest : List (String × VarMeta))
    (kw : List (String × Value)) :
    validateVars pn pv (pre ++ rest) kw =
      match validateVars pn pv pre kw with
      | .ok _ => validateVars pn pv rest kw
      | .error e => .error e := by
  induction pre with
  | nil => rfl
  | cons hd tl ih =>
    obtain ⟨n, meta⟩ := hd
    simp only [List.cons_append, validateVars]
    split
    · rfl
    · split
      · split
        · split
          · exact ih
          · rfl
        · exact ih
      · exact ih

theorem render_of_validate_error (p : Prompt) (kw : List (String × Value))
    (e : RenderError) (h : p.validate kw = .error e) :
    p.render kw = .error e := by
  unfold Prompt.render
  rw [h]

/-! ### Claim C1 — version ordering -/

/-- C1, counterexample: with versions "1.2" and "1.10" of prompt "p" in the
store, `versions` lists "1.10" before "1.2" (plain string sort), not "1.2"
before "1.10" as the claim states, and `load` with no version returns the
"1.2" record, not the "1.10" one. -/
theorem c1_counterexample :
    c1Vault.versions "p" = .ok ["1.10", "1.2"] ∧
    c1Vault.versions "p" ≠ .ok ["1.2", "1.10"] ∧
    (c1Vault.load "p" none).map Prompt.version = .ok "1.2" ∧
    (c1Vault.load "p" none).map Prompt.version ≠ .ok "1.10" := by
  refine ⟨by decide, by decide, by decide, by decide⟩

/-- C1 (amended): version ordering is plain lexicographic string order, not
numeric-aware: for a name whose candidates carry versions "1.2" and "1.10",
`versions(name)` lists "1.10" before "1.2" and `load(name)` with no version
argument parses and returns the "1.2" file, the maximum under string order. -/
theorem c1_lexicographic (v : PromptVault) (name : String) (f1 f2 : RawFile)
    (hf : findFiles v name = [f1, f2])
    (h1 : f1.version = some "1.2") (h2 : f2.version = some "1.10") :
    v.versions name = .ok ["1.10", "1.2"] ∧ v.load name none = parseFile f1 := by
  have hsort : sortStrings ["1.2", "1.10"] = ["1.10", "1.2"] := by decide
  have hle : pyStrLe "1.2" "1.10" = false := by decide
  constructor
  · unfold PromptVault.versions
    rw [hf]
    simp [versionsOf, h1, h2, Except.map, hsort]
  · unfold PromptVault.load
    rw [hf]
    simp [pairVersions, h1, h2, Except.map, sortPairs, insertPair, hle]

/-- C1 witness: the amended lexicographic behavior at the concrete
two-version store. -/
theorem c1_lexicographic_witness :
    c1Vault.versions "p" = .ok ["1.10", "1.2"] ∧
    c1Vault.load "p" none = parseFile c1FileA :=
  c1_lexicographic c1Vault "p" c1FileA c1FileB (by decide) rfl rfl

/-! ### Claim C2 — type tag "integer" vs "int" -/

/-- C2, counterexample: a record declaring variable "n" with type tag
"integer" (the spec's tag spelling) renders successfully when "n" is
supplied as text — no `TypeMismatch` is raised, because the validator's
`type_map` only recognizes "str"/"int"/"float"/"bool". -/
theorem c2_counterexample :
    c2Prompt.variables =
      [("n", { required := none, default := none, type := some "integer" })] ∧
    c2Prompt.render [("n", .vstr "x")] = .ok "x" := by
  refine ⟨rfl, by decide⟩

/-- C2 (amended): for every record declaring a variable with the recognized
type tag "int", if that variable is supplied as a text (string) value and
validation of the variables declared before it passes, render fails with a
`TypeError` carrying the variable's name, the expected tag "int" and the
actual runtime type "str". -/
theorem c2_int_tag_mismatch (p : Prompt) (kw : List (String × Value))
    (pre post : List (String × VarMeta)) (n s : String) (meta : VarMeta)
    (hsplit : p.variables = pre ++ (n, meta) :: post)
    (htype : meta.type = some "int")
    (hsup : dlookup n kw = some (.vstr s))
    (hpre : validateVars p.name p.version pre kw = .ok ()) :
    p.render kw = .error (.typeMismatch n p.name "int" "str") := by
  apply render_of_validate_error
  unfold Prompt.validate
  rw [hsplit, validateVars_append, hpre]
  simp [validateVars, hsup, htype, typeMap, pyIsInstance, pyTypeName]

/-- C2 witness: the amended behavior at a concrete one-variable record. -/
theorem c2_int_tag_mismatch_witness :
    c2IntPrompt.render [("n", .vstr "x")] =
      .error (.typeMismatch "n" "p" "int" "str") :=
  c2_int_tag_mismatch c2IntPrompt [("n", .vstr "x")] [] []
    "n" "x" { type := some "int" } rfl rfl (by decide) rfl

/-! ### Claim C8 — log without a sink -/

/-- C8: with no log sink configured, `log` performs no externally visible
effect at all, whatever its arguments: it creates no directory, appends no
record, and (being a total function in this model, mirroring the early
`return`) raises nothing. -/
theorem c8_log_no_sink (v : PromptVault) (now name : String)
    (version rendered response model : Option String)
    (extra : List (String × Value)) (h : v.logFile = none) :
    v.log now name version rendered response model extra = [] := by
  unfold PromptVault.log
  rw [h]

/-- C8 witness: the no-sink no-op at a concrete vault and argument set. -/
theorem c8_log_no_sink_witness :
    PromptVault.log { files := [] } "2024-01-01T00:00:00" "p"
      (some "1.0") (some "text") (some "resp") (some "gpt-4o")
      [("latency", .vint 3)] = [] :=
  c8_log_no_sink _ _ _ _ _ _ _ _ rfl

/-! ### Claim C7 — diff sentinel on identical templates -/

/-- C7: whenever the two loaded templates are byte-identical — in particular
when the same version is requested on both sides — `diff` returns exactly
the literal sentinel string "(no differences)", not an empty or conventional
diff text. -/
theorem c7_diff_identical (v : PromptVault) (name va vb : String) (a b : Prompt)
    (ha : v.load name (some va) = .ok a) (hb : v.load name (some vb) = .ok b)
    (heq : a.template = b.template) :
    v.diff name va vb = .ok "(no differences)" := by
  unfold PromptVault.diff
  rw [ha, hb]
  simp [heq, unifiedDiff, String.join]

/-- The single-file store used to witness C7. -/
def c7Vault : PromptVault :=
  { files := [{ stem := "p_10", name := some "p", version := some "1.0",
                template := some "hello\nworld" }] }

/-- The prompt `c7Vault` parses for name "p", version "1.0". -/
def c7Prompt : Prompt :=
  { name := "p", version := "1.0", template := "hello\nworld" }

/-- C7 witness: `diff` on the same version of a concrete prompt. -/
theorem c7_diff_identical_witness :
    c7Vault.diff "p" "1.0" "1.0" = .ok "(no differences)" :=
  c7_diff_identical c7Vault "p" "1.0" "1.0" c7Prompt c7Prompt
    (by decide) (by decide) rfl

/-! ### Claim C10 — a nameless store file is listed but not loadable -/

/-- C10: a store file lacking a `name` field contributes its filename stem to
`list()`, but `load` matches candidates only on the `name` field, so loading
that listed stem (when no file's `name` field equals it) fails with the
not-found error — `list()` output is not guaranteed to be loadable. -/
theorem c10_list_not_loadable (v : PromptVault) (f : RawFile)
    (hmem : f ∈ v.files) (hname : f.name = none)
    (hnone : ∀ g ∈ v.files, g.name ≠ some f.stem) :
    f.stem ∈ v.list ∧
    v.load f.stem none = .error (.promptNotFound f.stem v.list) := by
  constructor
  · unfold PromptVault.list
    rw [mem_sortStrings, List.mem_dedup]
    exact List.mem_map.mpr ⟨f, hmem, by rw [hname]; rfl⟩
  · have hff : findFiles v f.stem = [] := by
      unfold findFiles
      rw [List.filter_eq_nil_iff]
      intro g hg
      simp [hnone g hg]
    unfold PromptVault.load
    rw [hff]
    rfl

/-- A store file with no `name` field. -/
def c10File : RawFile := { stem := "orphan", template := some "T" }

/-- A store holding the nameless file beside a normal one. -/
def c10Vault : PromptVault :=
  { files := [c10File, { stem := "q1", name := some "q", version := some "1.0",
                         template := some "Q" }] }

/-- C10 witness: the nameless file's stem is listed yet not loadable. -/
theorem c10_list_not_loadable_witness :
    "orphan" ∈ c10Vault.list ∧
    c10Vault.load "orphan" none = .error (.promptNotFound "orphan" c10Vault.list) :=
  c10_list_not_loadable c10Vault c10File (by decide) rfl (by decide)

/-! ### Validation-error characterizations -/

theorem validateVars_missingRequired_char (pn pv : String)
    (vars : List (String × VarMeta)) (kw : List (String × Value))
    (n a b : String)
    (h : validateVars pn pv vars kw = .error (.missingRequired n a b)) :
    a = pn ∧ b = pv ∧ ∃ meta, (n, meta) ∈ vars ∧
      meta.required.getD true = true ∧ meta.default = none ∧
      dlookup n kw = none := by
  induction vars with
  | nil => simp [validateVars] at h
  | cons hd tl ih =>
    obtain ⟨n', meta⟩ := hd
    simp only [validateVars] at h
    split at h
    · rename_i hc
      rw [Except.error.injEq, RenderError.missingRequired.injEq] at h
      obtain ⟨hn, ha, hb⟩ := h
      subst hn
      obtain ⟨⟨hreq, hdef⟩, hnone⟩ := by simpa [Bool.and_eq_true] using hc
      refine ⟨ha.symm, hb.symm, meta, List.mem_cons_self .., hreq, ?_, ?_⟩
      · cases hmd : meta.default with
        | none => rfl
        | some d => rw [hmd] at hdef; simp at hdef
      · exact hnone
    · split at h
      · split at h
        · split at h
          · obtain ⟨ha, hb, meta', hmem, hrest⟩ := ih h
            exact ⟨ha, hb, meta', List.mem_cons_of_mem _ hmem, hrest⟩
          · simp at h
        · obtain ⟨ha, hb, meta', hmem, hrest⟩ := ih h
          exact ⟨ha, hb, meta', List.mem_cons_of_mem _ hmem, hrest⟩
      · obtain ⟨ha, hb, meta', hmem, hrest⟩ := ih h
        exact ⟨ha, hb, meta', List.mem_cons_of_mem _ hmem, hrest⟩

theorem validateVars_typeMismatch_char (pn pv : String)
    (vars : List (String × VarMeta)) (kw : List (String × Value))
    (n a e t : String)
    (h : validateVars pn pv vars kw = .error (.typeMismatch n a e t)) :
    a = pn ∧ ∃ meta py v, (n, meta) ∈ vars ∧ meta.type = some e ∧
      typeMap e = some py ∧ dlookup n kw = some v ∧
      pyIsInstance v py = false ∧ t = pyTypeName v := by
  induction vars with
  | nil => simp [validateVars] at h
  | cons hd tl ih =>
    obtain ⟨n', meta⟩ := hd
    simp only [validateVars] at h
    split at h
    · simp at h
    · split at h
      · rename_i t' v hmt hdl
        split at h
        · rename_i py hpy
          split at h
          · obtain ⟨ha, meta', py', v', hrest⟩ := ih h
            exact ⟨ha, meta', py', v', List.mem_cons_of_mem _ hrest.1, hrest.2⟩
          · rename_i hinst
            rw [Except.error.injEq, RenderError.typeMismatch.injEq] at h
            obtain ⟨hn, ha, he, ht⟩ := h
            subst hn
            refine ⟨ha.symm, meta, py, v, List.mem_cons_self .., ?_, ?_, hdl, ?_, ht.symm⟩
            · rw [hmt, he]
            · rw [← he]; exact hpy
            · simpa using hinst
        · obtain ⟨ha, meta', py', v', hrest⟩ := ih h
          exact ⟨ha, meta', py', v', List.mem_cons_of_mem _ hrest.1, hrest.2⟩
      · obtain ⟨ha, meta', py', v', hrest⟩ := ih h
        exact ⟨ha, meta', py', v', List.mem_cons_of_mem _ hrest.1, hrest.2⟩

/-- A `missingRequired` or `typeMismatch` failure of `render` can only come
from the validation step: the substitution step maps its errors to the
`missingVariable` and `invalidPlaceholder` shapes. -/
theorem render_error_source (p : Prompt) (kw : List (String × Value))
    (e : RenderError) (h : p.render kw = .error e)
    (hne : ∀ x pn pv l, e ≠ .missingVariable x pn pv l)
    (hne2 : e ≠ .invalidPlaceholder) :
    p.validate kw = .error e := by
  unfold Prompt.render at h
  cases hv : p.validate kw with
  | error e' =>
    rw [hv] at h
    rw [Except.error.injEq] at h
    rw [h]
  | ok u =>
    cases u
    rw [hv] at h
    cases hs : substitute (applyDefaults p.variables kw) p.template with
    | ok s => rw [hs] at h; simp at h
    | error se =>
      cases se with
      | missing x =>
        rw [hs] at h
        rw [Except.error.injEq] at h
        exact ((hne _ _ _ _ h.symm).elim)
      | invalid =>
        rw [hs] at h
        rw [Except.error.injEq] at h
        exact ((hne2 h.symm).elim)

/-- A `KeyError` escaping the substitution scan names a placeholder that is
genuinely absent from the working mapping. -/
theorem substGo_missing (m : List (String × Value)) :
    ∀ (l : List Char) (st : SubstState) (x : String),
    substGo m st l = .error (.missing x) → dlookup x m = none := by
  intro l
  induction l with
  | nil =>
    intro st x h
    cases st with
    | normal => simp [substGo] at h
    | afterDollar => simp [substGo] at h
    | inName acc =>
      simp only [substGo] at h
      split at h
      · simp at h
      · rename_i hdl
        rw [Except.error.injEq, SubstErr.missing.injEq] at h
        rw [← h]
        exact hdl
    | inBrace acc => simp [substGo] at h
  | cons c rest ih =>
    intro st x h
    cases st with
    | normal =>
      simp only [substGo] at h
      split at h
      · exact ih _ _ h
      · exact ih _ _ (except_map_error h)
    | afterDollar =>
      simp only [substGo] at h
      split at h
      · exact ih _ _ (except_map_error h)
      · split at h
        · exact ih _ _ h
        · split at h
          · exact ih _ _ h
          · simp at h
    | inName acc =>
      simp only [substGo] at h
      split at h
      · exact ih _ _ h
      · split at h
        · rename_i hdl
          rw [Except.error.injEq, SubstErr.missing.injEq] at h
          rw [← h]
          exact hdl
        · split at h
          · exact ih _ _ (except_map_error h)
          · exact ih _ _ (except_map_error h)
    | inBrace acc =>
      simp only [substGo] at h
      split at h
      · split at h
        · simp at h
        · split at h
          · exact ih _ _ (except_map_error h)
          · rename_i hdl
            rw [Except.error.injEq, SubstErr.missing.injEq] at h
            rw [← h]
            exact hdl
      · split at h
        · split at h
          · exact ih _ _ h
          · simp at h
        · split at h
          · exact ih _ _ h
          · simp at h

/-! ### Claim C3 — required variables without defaults -/

/-- C3 (amended), in two parts.  Forward: if some declared variable is
required (`required` true or unspecified), has no declared default and is
absent from the supplied mapping, and validation of the variables declared
before it passes, then render fails with the validation-step `MissingVariable`
error naming that variable together with the prompt's name and version.
Converse: whenever render fails with that error shape, the named variable is
declared, effectively required, defaultless and absent from the supplied
mapping — so a variable carrying a default or marked `required: false` never
triggers this validation-step error. -/
theorem c3_missing_required (p : Prompt) (kw : List (String × Value)) :
    (∀ pre post n meta,
      p.variables = pre ++ (n, meta) :: post →
      meta.required.getD true = true → meta.default = none →
      dlookup n kw = none →
      validateVars p.name p.version pre kw = .ok () →
      p.render kw = .error (.missingRequired n p.name p.version)) ∧
    (∀ n pn pv, p.render kw = .error (.missingRequired n pn pv) →
      pn = p.name ∧ pv = p.version ∧
      ∃ meta, (n, meta) ∈ p.variables ∧ meta.required.getD true = true ∧
        meta.default = none ∧ dlookup n kw = none) := by
  constructor
  · intro pre post n meta hsplit hreq hdef hdl hpre
    apply render_of_validate_error
    unfold Prompt.validate
    rw [hsplit, validateVars_append, hpre]
    simp [validateVars, hreq, hdef, hdl]
  · intro n pn pv h
    have hv := render_error_source p kw _ h (by intro x a b l hx; cases hx) (by intro hx; cases hx)
    exact validateVars_missingRequired_char p.name p.version p.variables kw n pn pv hv

/-- The prompt and supplied mapping of the C3 counterexample: variable "a"
is typed "int" and supplied as text, variable "b" is required with no
default and absent. -/
def c3Prompt : Prompt :=
  { name := "p", version := "1", template := "$a $b",
    «variables» := [("a", { type := some "int" }), ("b", {})] }

/-- C3, counterexample: variable "b" of `c3Prompt` is declared, required by
default, defaultless and absent from the supplied mapping, yet render does
not fail with a `MissingVariable` error naming "b" — the earlier declared
variable "a" fails its type check first and render raises `TypeMismatch`. -/
theorem c3_counterexample :
    dlookup "b" c3Prompt.variables = some {} ∧
    dlookup "b" [("a", Value.vstr "x")] = none ∧
    c3Prompt.render [("a", .vstr "x")] =
      .error (.typeMismatch "a" "p" "int" "str") ∧
    c3Prompt.render [("a", .vstr "x")] ≠
      .error (.missingRequired "b" "p" "1") := by
  refine ⟨rfl, rfl, by decide, by decide⟩

/-- The one-variable prompt witnessing the amended C3. -/
def c3ReqPrompt : Prompt :=
  { name := "p", version := "1", template := "$b", «variables» := [("b", {})] }

/-- C3 witness: both directions of the amended claim at a concrete record. -/
theorem c3_missing_required_witness :
    c3ReqPrompt.render [] = .error (.missingRequired "b" "p" "1") ∧
    ("p" = c3ReqPrompt.name ∧ "1" = c3ReqPrompt.version ∧
      ∃ meta, ("b", meta) ∈ c3ReqPrompt.variables ∧
        meta.required.getD true = true ∧ meta.default = none ∧
        dlookup "b" ([] : List (String × Value)) = none) := by
  have h1 := (c3_missing_required c3ReqPrompt []).1 [] [] "b" {} rfl rfl rfl rfl rfl
  exact ⟨h1, (c3_missing_required c3ReqPrompt []).2 "b" "p" "1" h1⟩

/-! ### Claim C4 — substitution-step missing variable -/

/-- C4: when validation passes and the substitution scan reports a
placeholder name missing from the merged working mapping, render fails with
the `MissingVariable` error that carries the prompt's name and version and
lists all declared variable names (not only the missing one); the named
placeholder is genuinely absent from the working mapping.  In particular a
variable declared `required: false` with no default, absent from the
supplied mapping but referenced in the template, fails this way (the
witness below instantiates exactly that scenario). -/
theorem c4_subst_missing (p : Prompt) (kw : List (String × Value)) (x : String)
    (hval : p.validate kw = .ok ())
    (hsub : substitute (applyDefaults p.variables kw) p.template =
      .error (.missing x)) :
    p.render kw =
      .error (.missingVariable x p.name p.version (p.variables.map Prod.fst)) ∧
    dlookup x (applyDefaults p.variables kw) = none := by
  constructor
  · unfold Prompt.render
    rw [hval, hsub]
  · exact substGo_missing _ _ _ _ hsub

/-- The optional, defaultless, template-referenced variable scenario. -/
def c4Prompt : Prompt :=
  { name := "p", version := "1", template := "$v",
    «variables» := [("v", { required := some false })] }

/-- C4 witness: the optional defaultless variable "v", absent from the
supplied mapping yet referenced in the template, passes validation but fails
at substitution with the full-information error. -/
theorem c4_subst_missing_witness :
    c4Prompt.render [] = .error (.missingVariable "v" "p" "1" ["v"]) ∧
    dlookup "v" (applyDefaults c4Prompt.variables []) = none :=
  c4_subst_missing c4Prompt [] "v" (by decide) (by decide)

/-! ### Claim C9 — unrecognized type tags are never checked -/

theorem typeMap_eq_none {t : String} (h1 : t ≠ "str") (h2 : t ≠ "int")
    (h3 : t ≠ "float") (h4 : t ≠ "bool") : typeMap t = none := by
  rw [typeMap.eq_def]
  split <;> simp_all

/-- C9: if a declared variable's type tag is not one of the four strings
"str", "int", "float", "bool" (for example "string", "integer" or
"boolean"), render performs no type check for that variable: it can never
fail with a type-mismatch error naming it, whatever value is supplied. -/
theorem c9_unknown_tag_no_check (p : Prompt) (kw : List (String × Value))
    (n : String) (meta : VarMeta) (t : String)
    (hnd : (p.variables.map Prod.fst).Nodup)
    (hmem : (n, meta) ∈ p.variables) (ht : meta.type = some t)
    (h1 : t ≠ "str") (h2 : t ≠ "int") (h3 : t ≠ "float") (h4 : t ≠ "bool")
    (pn e a : String) :
    p.render kw ≠ .error (.typeMismatch n pn e a) := by
  intro h
  have hv := render_error_source p kw _ h
    (by intro x b c l hx; cases hx) (by intro hx; cases hx)
  obtain ⟨-, meta', py, v, hmem', htype', hpy, -, -, -⟩ :=
    validateVars_typeMismatch_char p.name p.version p.variables kw n pn e a hv
  have hmeq : meta' = meta := assoc_unique hnd hmem' hmem
  rw [hmeq, ht, Option.some.injEq] at htype'
  rw [← htype'] at hpy
  rw [typeMap_eq_none h1 h2 h3 h4] at hpy
  cases hpy

/-- The record declaring the unrecognized tag "integer". -/
def c9Prompt : Prompt :=
  { name := "p", version := "1", template := "$n",
    «variables» := [("n", { type := some "integer" })] }

/-- C9 witness: a variable tagged "integer" is never the subject of a type
error, here with a float supplied for it. -/
theorem c9_unknown_tag_no_check_witness :
    c9Prompt.render [("n", .vfloat "1.5")] ≠
      .error (.typeMismatch "n" "p" "integer" "float") :=
  c9_unknown_tag_no_check c9Prompt [("n", .vfloat "1.5")] "n"
    { type := some "integer" } "integer" (by decide) (by decide) rfl
    (by decide) (by decide) (by decide) (by decide) "p" "integer" "float"

/-! ### Claim C5 — the working mapping -/

theorem dlookup_loop_none (vars : List (String × VarMeta))
    (kw : List (String × Value)) (k : String) (h : dlookup k vars = none) :
    dlookup k (applyDefaultsLoop vars kw) = none := by
  induction vars with
  | nil => simp [applyDefaultsLoop, dlookup]
  | cons hd tl ih =>
    obtain ⟨n, meta⟩ := hd
    rw [dlookup] at h
    by_cases hk : k = n
    · rw [if_pos hk] at h; cases h
    · rw [if_neg hk] at h
      cases hnk : dlookup n kw with
      | some v => simp [applyDefaultsLoop, hnk, dlookup, hk, ih h]
      | none =>
        cases hmd : meta.default with
        | some d => simp [applyDefaultsLoop, hnk, hmd, dlookup, hk, ih h]
        | none => simp [applyDefaultsLoop, hnk, hmd, ih h]

theorem dlookup_loop_some (vars : List (String × VarMeta))
    (kw : List (String × Value)) (k : String) (meta : VarMeta)
    (hnd : (vars.map Prod.fst).Nodup) (h : dlookup k vars = some meta) :
    dlookup k (applyDefaultsLoop vars kw) =
      match dlookup k kw with
      | some v => some v
      | none => meta.default := by
  induction vars with
  | nil => simp [dlookup] at h
  | cons hd tl ih =>
    obtain ⟨n, m'⟩ := hd
    simp only [List.map_cons, List.nodup_cons] at hnd
    rw [dlookup] at h
    by_cases hk : k = n
    · rw [if_pos hk] at h
      rw [Option.some.injEq] at h
      subst hk
      cases hnk : dlookup k kw with
      | some v => simp [applyDefaultsLoop, hnk, dlookup]
      | none =>
        cases hmd : m'.default with
        | some d => simp [applyDefaultsLoop, hnk, hmd, dlookup, ← h]
        | none =>
          have htl : dlookup k tl = none := by
            cases hdl : dlookup k tl with
            | none => rfl
            | some z => exact absurd (mem_keys_of_mem (dlookup_mem hdl)) hnd.1
          simp [applyDefaultsLoop, hnk, hmd, dlookup_loop_none tl kw k htl, ← h]
    · rw [if_neg hk] at h
      have hrec := ih hnd.2 h
      cases hnk : dlookup n kw with
      | some v => simp [applyDefaultsLoop, hnk, dlookup, hk, hrec]
      | none =>
        cases hmd : m'.default with
        | some d => simp [applyDefaultsLoop, hnk, hmd, dlookup, hk, hrec]
        | none => simp [applyDefaultsLoop, hnk, hmd, hrec]

theorem dlookup_filter_isNone (kw merged : List (String × Value)) (k : String)
    (hk : dlookup k merged = none) :
    dlookup k (kw.filter (fun p => (dlookup p.1 merged).isNone)) =
      dlookup k kw := by
  induction kw with
  | nil => simp
  | cons hd tl ih =>
    obtain ⟨k', v⟩ := hd
    rw [List.filter_cons]
    by_cases hkk : k = k'
    · subst hkk
      rw [if_pos (by simp [hk])]
      simp [dlookup]
    · by_cases hp : (dlookup k' merged).isNone = true
      · rw [if_pos (by simpa using hp)]
        simp [dlookup, hkk, ih]
      · rw [if_neg (by simpa using hp)]
        simp [dlookup, hkk, ih]

/-- C5: the working mapping used for substitution holds, for each declared
variable, the supplied value when present, else the declared default when
present, else no entry; every other supplied key is overlaid afterwards — so
a supplied value always takes precedence over a declared default and
undeclared extra supplied variables are present for substitution. -/
theorem c5_working_mapping (vars : List (String × VarMeta))
    (kw : List (String × Value)) (k : String)
    (hnd : (vars.map Prod.fst).Nodup) :
    dlookup k (applyDefaults vars kw) =
      match dlookup k vars with
      | some meta =>
        (match dlookup k kw with
         | some v => some v
         | none => meta.default)
      | none => dlookup k kw := by
  unfold applyDefaults
  rw [dlookup_append]
  cases hdv : dlookup k vars with
  | some meta =>
    rw [dlookup_loop_some vars kw k meta hnd hdv]
    cases hnk : dlookup k kw with
    | some v => rfl
    | none =>
      cases hmd : meta.default with
      | some d => simp [hmd]
      | none =>
        have hmg : dlookup k (applyDefaultsLoop vars kw) = none := by
          rw [dlookup_loop_some vars kw k meta hnd hdv, hnk, hmd]
        show dlookup k (kw.filter _) = _
        rw [dlookup_filter_isNone kw _ k hmg, hnk]
        simp [hmd]
  | none =>
    have hmg := dlookup_loop_none vars kw k hdv
    rw [hmg]
    show dlookup k (kw.filter _) = _
    rw [dlookup_filter_isNone kw _ k hmg]

/-- C5 witness: the working-mapping law at a concrete record: "a" defaulted
and not supplied, "b" declared and supplied, "c" an undeclared extra. -/
theorem c5_working_mapping_witness :
    (dlookup "a" (applyDefaults
        [("a", { default := some (.vint 1) }), ("b", {})]
        [("b", .vstr "s"), ("c", .vint 3)]) = some (.vint 1)) ∧
    (dlookup "b" (applyDefaults
        [("a", { default := some (.vint 1) }), ("b", {})]
        [("b", .vstr "s"), ("c", .vint 3)]) = some (.vstr "s")) ∧
    (dlookup "c" (applyDefaults
        [("a", { default := some (.vint 1) }), ("b", {})]
        [("b", .vstr "s"), ("c", .vint 3)]) = some (.vint 3)) := by
  refine ⟨?_, ?_, ?_⟩ <;>
    rw [c5_working_mapping _ _ _ (by decide)] <;> decide

/-! ### Claim C6 — rendering with defaults vs. supplying the defaults -/

theorem applyDefaults_eq (vars : List (String × VarMeta))
    (kw : List (String × Value)) :
    applyDefaults vars kw = applyDefaultsLoop vars kw ++
      kw.filter (fun p => (dlookup p.1 (applyDefaultsLoop vars kw)).isNone) := rfl

theorem validateVars_nil_ok (pn pv : String) (vars : List (String × VarMeta))
    (hdef : ∀ nm ∈ vars, nm.2.default.isSome = true) :
    validateVars pn pv vars [] = .ok () := by
  induction vars with
  | nil => rfl
  | cons hd tl ih =>
    obtain ⟨n, meta⟩ := hd
    have hd1 : meta.default.isSome = true := hdef (n, meta) (List.mem_cons_self ..)
    rw [validateVars, if_neg (by simp [hd1])]
    have hrec := ih (fun nm hm => hdef nm (List.mem_cons_of_mem _ hm))
    cases hmt : meta.type <;> simp [dlookup, hrec]

theorem validateVars_defaults_ok (pn pv : String) (vars : List (String × VarMeta))
    (kw : List (String × Value))
    (h : ∀ nm ∈ vars, ∃ d, nm.2.default = some d ∧ dlookup nm.1 kw = some d ∧
      defaultWellTyped nm.2 = true) :
    validateVars pn pv vars kw = .ok () := by
  induction vars with
  | nil => rfl
  | cons hd tl ih =>
    obtain ⟨n, meta⟩ := hd
    obtain ⟨d, hd1, hd2, hd3⟩ := h (n, meta) (List.mem_cons_self ..)
    have hmd : meta.default = some d := hd1
    have hsup : dlookup n kw = some d := hd2
    have hwt : defaultWellTyped meta = true := hd3
    rw [validateVars, if_neg (by simp [hsup])]
    have hrec := ih (fun nm hm => h nm (List.mem_cons_of_mem _ hm))
    cases hmt : meta.type with
    | none => simpa [hsup] using hrec
    | some t =>
      cases hpy : typeMap t with
      | none => simp [hsup, hpy, hrec]
      | some py =>
        have hinst : pyIsInstance d py = true := by
          simp only [defaultWellTyped, hmd, hmt, hpy] at hwt
          exact hwt
        simp [hsup, hpy, hinst, hrec]

theorem applyDefaultsLoop_nil (vars : List (String × VarMeta)) :
    applyDefaultsLoop vars [] = defaultsOf vars := by
  induction vars with
  | nil => rfl
  | cons hd tl ih =>
    obtain ⟨n, meta⟩ := hd
    cases hmd : meta.default with
    | some d => simp [applyDefaultsLoop, defaultsOf, List.filterMap_cons, dlookup,
        hmd, ih]
    | none => simp [applyDefaultsLoop, defaultsOf, List.filterMap_cons, dlookup,
        hmd, ih]

theorem applyDefaultsLoop_defaults (vars : List (String × VarMeta))
    (kw : List (String × Value))
    (h : ∀ nm ∈ vars, ∃ d, nm.2.default = some d ∧ dlookup nm.1 kw = some d) :
    applyDefaultsLoop vars kw = defaultsOf vars := by
  induction vars with
  | nil => rfl
  | cons hd tl ih =>
    obtain ⟨n, meta⟩ := hd
    obtain ⟨d, hd1, hd2⟩ := h (n, meta) (List.mem_cons_self ..)
    have hmd : meta.default = some d := hd1
    have hsup : dlookup n kw = some d := hd2
    have hrec := ih (fun nm hm => h nm (List.mem_cons_of_mem _ hm))
    simp [applyDefaultsLoop, hsup, defaultsOf, List.filterMap_cons, hmd, hrec]

theorem filter_mem_none (kw merged : List (String × Value))
    (h : ∀ p ∈ kw, (dlookup p.1 merged).isSome = true) :
    kw.filter (fun p => (dlookup p.1 merged).isNone) = [] := by
  induction kw with
  | nil => rfl
  | cons hd tl ih =>
    rw [List.filter_cons]
    obtain ⟨v, hv⟩ := Option.isSome_iff_exists.mp (h hd (List.mem_cons_self ..))
    rw [if_neg (by simp [hv])]
    exact ih (fun p hp => h p (List.mem_cons_of_mem _ hp))

theorem dlookup_defaultsOf (vars : List (String × VarMeta)) (n : String)
    (meta : VarMeta) (d : Value)
    (hnd : (vars.map Prod.fst).Nodup) (hmem : (n, meta) ∈ vars)
    (hd : meta.default = some d) :
    dlookup n (defaultsOf vars) = some d := by
  induction vars with
  | nil => simp at hmem
  | cons hd' tl ih =>
    obtain ⟨n', m'⟩ := hd'
    simp only [List.map_cons, List.nodup_cons] at hnd
    rcases List.mem_cons.mp hmem with heq | hmem'
    · obtain ⟨h1, h2⟩ := Prod.mk.injEq .. |>.mp heq
      subst h1
      simp [defaultsOf, List.filterMap_cons, ← h2, hd, dlookup]
    · have hne : n ≠ n' := fun he => hnd.1 (he ▸ mem_keys_of_mem hmem')
      have hrec := ih hnd.2 hmem'
      cases hmd' : m'.default with
      | some d' =>
        simpa [defaultsOf, List.filterMap_cons, hmd', dlookup, hne] using hrec
      | none =>
        simpa [defaultsOf, List.filterMap_cons, hmd'] using hrec

/-- C6 (amended): for every record whose declared variables all carry
defaults, and whose defaults conform to their declared type tags where one
is declared, rendering with the supplied mapping explicitly equal to the
declared defaults gives exactly the same result as rendering with the empty
supplied mapping.  (Without the conformance proviso the claim fails: with
the defaults supplied explicitly the type check applies to them, while with
the empty mapping it is skipped.) -/
theorem c6_defaults_roundtrip (p : Prompt)
    (hnd : (p.variables.map Prod.fst).Nodup)
    (hdef : ∀ nm ∈ p.variables, nm.2.default.isSome = true)
    (hty : ∀ nm ∈ p.variables, defaultWellTyped nm.2 = true) :
    p.render (defaultsOf p.variables) = p.render [] := by
  have hpoint : ∀ nm ∈ p.variables, ∃ d, nm.2.default = some d ∧
      dlookup nm.1 (defaultsOf p.variables) = some d ∧
      defaultWellTyped nm.2 = true := by
    intro nm hm
    obtain ⟨d, hd⟩ := Option.isSome_iff_exists.mp (hdef nm hm)
    exact ⟨d, hd, dlookup_defaultsOf p.variables nm.1 nm.2 d hnd hm hd, hty nm hm⟩
  have hv1 : p.validate (defaultsOf p.variables) = .ok () :=
    validateVars_defaults_ok p.name p.version p.variables _ hpoint
  have hv2 : p.validate [] = .ok () :=
    validateVars_nil_ok p.name p.version p.variables hdef
  have hmerged : applyDefaults p.variables (defaultsOf p.variables) =
      applyDefaults p.variables [] := by
    rw [applyDefaults_eq, applyDefaults_eq,
      applyDefaultsLoop_nil,
      applyDefaultsLoop_defaults p.variables _
        (fun nm hm => ((hpoint nm hm).imp (fun d hd => ⟨hd.1, hd.2.1⟩))),
      filter_mem_none _ _ (fun q hq => dlookup_isSome_of_mem hq)]
    simp
  unfold Prompt.render
  rw [hv1, hv2, hmerged]

/-- The record of the C6 counterexample: its only variable carries a default
(100, an int) that violates its own declared type tag "str". -/
def c6Prompt : Prompt :=
  { name := "p", version := "1", template := "$a",
    «variables» := [("a", { default := some (.vint 100), type := some "str" })] }

/-- C6, counterexample: every declared variable of `c6Prompt` carries a
default, yet rendering with empty supplied succeeds while rendering with the
supplied mapping explicitly equal to the declared defaults raises
`TypeMismatch` — the two renders do not return the same string. -/
theorem c6_counterexample :
    c6Prompt.render [] = .ok "100" ∧
    defaultsOf c6Prompt.variables = [("a", .vint 100)] ∧
    c6Prompt.render [("a", .vint 100)] =
      .error (.typeMismatch "a" "p" "str" "int") := by
  refine ⟨by decide, by decide, by decide⟩

/-- A record whose declared defaults all conform to their type tags. -/
def c6GoodPrompt : Prompt :=
  { name := "p", version := "1", template := "Use $a and $b",
    «variables» := [("a", { default := some (.vint 100), type := some "int" }),
                    ("b", { default := some (.vstr "z") })] }

/-- C6 witness: the amended round-trip at a concrete well-typed record. -/
theorem c6_defaults_roundtrip_witness :
    c6GoodPrompt.render (defaultsOf c6GoodPrompt.variables) =
      c6GoodPrompt.render [] ∧
    c6GoodPrompt.render [] = .ok "Use 100 and z" :=
  ⟨c6_defaults_roundtrip c6GoodPrompt (by decide) (by decide) (by decide),
   by decide⟩
